import Mathlib

/-
Shallow embedding of the submission-supervision and process-classification
subsystem of aiida-jutools (file aiida_jutools/util_process.py):
`ProcessClassifier.classify_by_state` / `count`, the temporary classification
group lifecycle, and `SubmissionSupervisor.blocking_submit` with its settings
guard, admission loop, stalling filter and tracked in-flight set.

External collaborators (the aiida store, groups, the quota querier, the
engine submit call) are modelled explicitly: the store is a list of process
records plus a list of named groups; time and the externally mutated running
counts are supplied per loop iteration by an `Env`; observable side effects
(sleeps, ceiling checks, submissions, destructive node deletion, warnings)
are recorded in an event trace.
-/

/-- Lifecycle state of a process record (aiida ProcessState). -/
inductive PState where
  | created
  | waiting
  | running
  | finished
  | excepted
  | killed
deriving DecidableEq, Repr

/-- String value of a process state, as used by `get_process_states(as_string=True)`. -/
def psString : PState → String
  | .created => "created"
  | .waiting => "waiting"
  | .running => "running"
  | .finished => "finished"
  | .excepted => "excepted"
  | .killed => "killed"

/-- A process record (aiida ProcessNode) with the attributes this layer consumes. -/
structure PRecord where
  uuid : Nat
  pk : Nat
  label : String
  description : String
  processLabel : String
  state : PState
  exitStatus : Option Int
  mtime : Int
deriving DecidableEq, Repr

/-- `proc.is_terminated`: finished, excepted or killed. -/
def is_terminated (r : PRecord) : Bool :=
  match r.state with
  | .finished | .excepted | .killed => true
  | _ => false

/-- `proc.is_finished_ok`: finished with exit status 0. -/
def is_finished_ok (r : PRecord) : Bool :=
  r.state == PState.finished && r.exitStatus == some 0

/-- The external store as seen by the classifier: process records plus named
groups, a group being a label together with the uuids of its member nodes. -/
structure CStore where
  records : List PRecord
  groups : List (String × List Nat)
deriving DecidableEq, Repr

/-- `ProcessClassifier._TMP_GROUP_LABEL_PREFIX`. -/
def tmp_label_head : String := "process_classification"

/-- `_group_for_classification`, creation part: walk the stream of candidate
labels (timestamp + random suffix in the source), skip any that already exist,
and store a new empty group under the first fresh one.  `none` models the
source's `while` loop never finding a fresh label within the supplied stream. -/
def group_for_classification (store : CStore) : List String → Option (String × CStore)
  | [] => none
  | lbl :: rest =>
    if store.groups.any (fun g => g.1 == lbl) then
      group_for_classification store rest
    else
      some (lbl, { store with groups := store.groups ++ [(lbl, [])] })

/-- `tmp_classification_group.add_nodes(nodes=...)`: set the member uuids of the
group with the given label. -/
def set_group_members (store : CStore) (lbl : String) (ms : List Nat) : CStore :=
  { store with groups := store.groups.map (fun g => if g.1 == lbl then (g.1, ms) else g) }

/-- Look up the member uuids of the group with the given label. -/
def get_group_members (store : CStore) (lbl : String) : List Nat :=
  match store.groups.find? (fun g => g.1 == lbl) with
  | some g => g.2
  | none => []

/-- `util_group.delete_groups([lbl], skip_nonempty_groups=False)`: drop the group. -/
def delete_group (store : CStore) (lbl : String) : CStore :=
  { store with groups := store.groups.filter (fun g => g.1 != lbl) }

/-- `query_processes(group=tmp, process_states=[st]).all(flat=True)`: the store
records that are members of the group and currently have the given state string. -/
def query_group_state (store : CStore) (ms : List Nat) (st : String) : List PRecord :=
  store.records.filter (fun r => ms.contains r.uuid && psString r.state == st)

/-- The `classified_by_state` result: one bucket per non-finished state plus the
finished sub-buckets, an insertion-ordered mapping exit status -> records
(a Python dict in the source, so keys are unique). -/
structure Classified where
  created : List PRecord := []
  waiting : List PRecord := []
  running : List PRecord := []
  excepted : List PRecord := []
  killed : List PRecord := []
  finished : List (Option Int × List PRecord) := []
deriving DecidableEq, Repr

/-- One step of the finished-bucket loop: append the record to the bucket keyed
by its exit status, creating the bucket if absent (dict update semantics:
existing keys keep their position, new keys go to the end). -/
def insert_finished (acc : List (Option Int × List PRecord)) (p : PRecord) :
    List (Option Int × List PRecord) :=
  if acc.any (fun kv => kv.1 == p.exitStatus) then
    acc.map (fun kv => if kv.1 == p.exitStatus then (kv.1, kv.2 ++ [p]) else kv)
  else
    acc ++ [(p.exitStatus, [p])]

/-- The finished-state sub-partition by exit status. -/
def build_finished (procs : List PRecord) : List (Option Int × List PRecord) :=
  procs.foldl insert_finished []

/-- Build `classified_by_state` from the per-state query results: the five
non-finished states get their query result as bucket, finished is queried once
and sub-partitioned by exit status. -/
def classify_buckets (q : String → List PRecord) : Classified :=
  { created := q "created"
    waiting := q "waiting"
    running := q "running"
    excepted := q "excepted"
    killed := q "killed"
    finished := build_finished (q "finished") }

/-- `classify_by_state()`: create the temporary group, populate it with the
batch, re-query the store per state scoped to that group, then delete the
group.  `add_nodes_fails` injects a failure while populating the group (the
source has no try/finally around the cleanup).  Returns `none` if no fresh
group label was found in the supply, `some (.error (), store)` if populating
failed (note the store kept by that result), and `some (.ok c, store)` on
success. -/
def classify_by_state_run (store : CStore) (supply : List String) (batch : List PRecord)
    (add_nodes_fails : Bool) : Option (Except Unit Classified × CStore) :=
  match group_for_classification store supply with
  | none => none
  | some (lbl, store1) =>
    if add_nodes_fails then
      some (.error (), store1)
    else
      let store2 := set_group_members store1 lbl (batch.map (fun r => r.uuid))
      let c := classify_buckets (fun st => query_group_state store2 (get_group_members store2 lbl) st)
      some (.ok c, delete_group store2 lbl)

/-- `ProcessClassifier.__init__`, cleanup part: delete every leftover group
whose label starts with the temporary-group label head. -/
def classifier_init_purge (store : CStore) : CStore :=
  { store with groups := store.groups.filter (fun g => !(g.1.startsWith tmp_label_head)) }

/-- `get_process_states(terminated=None, as_string=True)`, in source order. -/
def state_keys : List String := ["created", "waiting", "running", "finished", "excepted", "killed"]

/-- `self.classified_by_state.get(st, [])` for the non-finished buckets. -/
def get_state_bucket (c : Classified) (st : String) : List PRecord :=
  if st == "created" then c.created
  else if st == "waiting" then c.waiting
  else if st == "running" then c.running
  else if st == "excepted" then c.excepted
  else if st == "killed" then c.killed
  else []

/-- `ProcessClassifier.count(process_states)`: sum bucket sizes over the
requested states (default all six), the finished dict summed over its
exit-status sub-buckets when non-empty. -/
def classifier_count (c : Classified) (states : Option (List String)) : Nat :=
  let sts := states.getD state_keys
  sts.foldl
    (fun tot st =>
      if st != "finished" then tot + (get_state_bucket c st).length
      else if !c.finished.isEmpty then tot + (c.finished.map (fun kv => kv.2.length)).sum
      else tot)
    0

/-- All buckets of a classification laid side by side, the finished dict
expanded across its exit-status sub-buckets. -/
def union_list (c : Classified) : List PRecord :=
  c.created ++ c.waiting ++ c.running ++ c.excepted ++ c.killed ++
    (c.finished.map (fun kv => kv.2)).flatten

/-- What `classify_by_state` computes on a store that stays unchanged during
the run: each per-state query returns the current store records that are
members of the temporary group (whose members are exactly the batch uuids). -/
def classify_canonical (recs batch : List PRecord) : Classified :=
  classify_buckets (fun st =>
    recs.filter (fun r => (batch.map (fun x => x.uuid)).contains r.uuid && psString r.state == st))

/-- `SubmissionSupervisorSettings`, with the source's dataclass defaults.
Time unit of the wait attributes is minutes. -/
structure SSSettings where
  dry_run : Bool := false
  max_top_processes_running : Nat := 10
  max_all_processes_running : Nat := 100
  wait_for_submit : Nat := 5
  max_wait_for_submit : Nat := 120
  wait_after_submit : Nat := 2
  resubmit_failed : Bool := true
  resubmit_failed_as_restart : Bool := true
  delete_if_stalling : Bool := false
  delete_if_stalling_dry_run : Bool := false
  max_wait_for_stalling : Nat := 240
deriving DecidableEq, Repr

/-- `__tmp_guard_against_delete_if_stalling`: if destructive stalling deletion
was requested, downgrade it to the dry-run simulation.  The second component
records whether the downgrade warning was printed. -/
def tmp_guard_against_delete_if_stalling (s : SSSettings) : SSSettings × Bool :=
  if s.delete_if_stalling then
    ({ s with delete_if_stalling := false, delete_if_stalling_dry_run := true }, true)
  else
    (s, false)

/-- A `SubmissionSupervisor`: settings, the optional quota querier (modelled by
the boolean its `is_min_free_space_left()` returns), and the tracked in-flight
list `_submitted_top_processes`. -/
structure Supervisor where
  settings : SSSettings
  quota : Option Bool
  tracked : List PRecord
deriving Repr

/-- `SubmissionSupervisor.__init__`: apply the settings guard, store the quota
querier, start with an empty tracked list. -/
def mk_supervisor (settings : SSSettings) (quota : Option Bool) : Supervisor :=
  { settings := (tmp_guard_against_delete_if_stalling settings).1
    quota := quota
    tracked := [] }

/-- A process builder: the caller-settable metadata consumed by
`blocking_submit` plus, for builders produced by `get_builder_restart()`, the
pk of the failed record they restart from. -/
structure Builder where
  label : String
  description : String
  processLabel : String
  restartedFrom : Option Nat := none
deriving DecidableEq, Repr

/-- Lines 735..741 of the source: `get_builder_restart()` from the first failed
match, then manually copy label and description over from the caller builder. -/
def rebuild_as_restart (failed : PRecord) (b : Builder) : Builder :=
  { label := b.label
    description := b.description
    processLabel := b.processLabel
    restartedFrom := some failed.pk }

/-- A stored group as seen by the supervisor: label and member records. -/
structure SGroup where
  label : String
  members : List PRecord
deriving DecidableEq, Repr

/-- `query_processes(label=.., process_label=.., group=g).all(flat=True)`. -/
def query_label_type (g : SGroup) (lbl plbl : String) : List PRecord :=
  g.members.filter (fun r => r.label == lbl && r.processLabel == plbl)

/-- The duplicate removal over the concatenated per-group query results:
keep the first occurrence of every uuid. -/
def dedupe_by_uuid : List PRecord → List Nat → List PRecord
  | [], _ => []
  | wc :: rest, seen =>
    if seen.contains wc.uuid then dedupe_by_uuid rest seen
    else wc :: dedupe_by_uuid rest (seen ++ [wc.uuid])

/-- The workchains found in the given groups for this builder, deduplicated. -/
def query_matches (gs : List SGroup) (b : Builder) : List PRecord :=
  dedupe_by_uuid (gs.flatMap (fun g => query_label_type g b.label b.processLabel)) []

/-- Observable side effects of one `blocking_submit` call. -/
inductive Event where
  | ceilingCheck : Event
  | sleep (seconds : Nat) : Event
  | submitted (b : Builder) : Event
  | deleteNodes (pk : Nat) : Event
  | warnTimeout : Event
  | warnRestartMismatch : Event
deriving DecidableEq, Repr

/-- The Python exceptions `blocking_submit` can raise. -/
inductive PyErr where
  | valueError
  | typeError
  | indexError
  | ioError
deriving DecidableEq, Repr

/-- Result value of a `blocking_submit` call: the returned pair, a raised
exception, or exhaustion of the artificial loop fuel (modelling a call that is
still polling). -/
inductive Outcome where
  | ret (p : Option PRecord) (from_db : Option Bool) : Outcome
  | err (e : PyErr) : Outcome
  | outOfFuel : Outcome
deriving DecidableEq, Repr

/-- Per-iteration external inputs of the admission loop: the two running
counts `num_running(0)` / `num_running(1)` re-observed on iteration `i`, the
wall-clock time `python_util.now()` at iteration `i` (in minutes), and the
record a successful engine submit produces. -/
structure Env where
  numTop : Nat → Nat
  numAll : Nat → Nat
  now : Nat → Int
  fresh : PRecord

/-- Full observable result of a `blocking_submit` call. -/
structure SubmitResult where
  outcome : Outcome
  tracked : List PRecord
  groups : List SGroup
  events : List Event
  settings : SSSettings

/-- The stalling predicate of the source: last modification longer ago than
`max_wait_for_stalling` minutes. -/
def is_stalling (s : SSSettings) (nowI : Int) (wc : PRecord) : Bool :=
  nowI - wc.mtime > (s.max_wait_for_stalling : Int)

/-- One pass of the stalling cleanup over the tracked list: drop every stalling
entry; for each dropped entry emit the destructive node deletion unless the
dry-run flag is set. -/
def stall_filter (s : SSSettings) (nowI : Int) (tracked : List PRecord) :
    List PRecord × List Event :=
  (tracked.filter (fun wc => !(is_stalling s nowI wc)),
   (tracked.filter (fun wc => is_stalling s nowI wc)).filterMap
     (fun wc => if s.delete_if_stalling_dry_run then none else some (Event.deleteNodes wc.pk)))

/-- `seconds_per_min`: 1 in dry-run mode, 60 otherwise. -/
def seconds_per_min (s : SSSettings) : Nat := if s.dry_run then 1 else 60

/-- The guarded stalling cleanup of one loop iteration: the source runs
`stall_filter` on the tracked list only when `delete_if_stalling` is set or its
dry-run variant is. -/
def stall_pair (s : SSSettings) (nowI : Int) (tracked : List PRecord) :
    List PRecord × List Event :=
  if s.delete_if_stalling || (!s.delete_if_stalling && s.delete_if_stalling_dry_run) then
    stall_filter s nowI tracked
  else
    (tracked, [])

/-- The admission loop (`while waited_for_submit <= s.max_wait_for_submit`).
Each iteration: optionally run the stalling cleanup on the tracked list, check
the two ceilings, and either sleep `wait_for_submit` minutes and retry, or
submit (unless dry-run) and return.  Loop exit returns the timeout sentinel
`(None, None)` with a warning.  `fuel` bounds the number of iterations the
embedding unrolls; it is consumed only by actual loop iterations. -/
def loop_go (s : SSSettings) (env : Env) (b : Builder) (gs : List SGroup) :
    Nat → Nat → Nat → List PRecord → List Event → SubmitResult
  | 0, _, waited, tracked, evs =>
    if waited > s.max_wait_for_submit then
      ⟨.ret none none, tracked, gs, evs ++ [.warnTimeout], s⟩
    else
      ⟨.outOfFuel, tracked, gs, evs, s⟩
  | fuel + 1, i, waited, tracked, evs =>
    if waited > s.max_wait_for_submit then
      ⟨.ret none none, tracked, gs, evs ++ [.warnTimeout], s⟩
    else if env.numTop i > s.max_top_processes_running
        || env.numAll i > s.max_all_processes_running then
      loop_go s env b gs fuel (i + 1) (waited + s.wait_for_submit)
        (stall_pair s (env.now i) tracked).1
        (evs ++ (stall_pair s (env.now i) tracked).2
          ++ [Event.ceilingCheck, Event.sleep (s.wait_for_submit * seconds_per_min s)])
    else if s.dry_run then
      ⟨.ret none (some false), (stall_pair s (env.now i) tracked).1, gs,
        evs ++ (stall_pair s (env.now i) tracked).2 ++ [Event.ceilingCheck], s⟩
    else
      ⟨.ret (some env.fresh) (some false), (stall_pair s (env.now i) tracked).1 ++ [env.fresh],
        gs.map (fun g => { g with members := g.members ++ [env.fresh] }),
        evs ++ (stall_pair s (env.now i) tracked).2
          ++ [Event.ceilingCheck, Event.submitted b,
              Event.sleep (s.wait_after_submit * seconds_per_min s)], s⟩

/-- Lines 726..753 of the source: choose the builder that will be submitted.
With `resubmit_failed` and `resubmit_failed_as_restart` both set, the builder
is rebuilt as a restart from `workchains_terminated[0]` (raising IndexError --
`none` here -- when that list is empty), warning when the caller metadata
differs from the failed record's. -/
def rebuild_for_resubmit (s : SSSettings) (b : Builder) (wcs_terminated : List PRecord) :
    Option (Builder × List Event) :=
  if s.resubmit_failed then
    if s.resubmit_failed_as_restart then
      match wcs_terminated with
      | [] => none
      | f :: _ =>
        some (rebuild_as_restart f b,
          if b.label != f.label || b.description != f.description then
            [Event.warnRestartMismatch]
          else [])
    else some (b, [])
  else some (b, [])

/-- The `else` branch of `blocking_submit` (nothing reusable in the db): rebuild
the builder if retrying, abort with IOError if the quota querier reports
insufficient free space, otherwise enter the admission loop. -/
def submit_branch (s : SSSettings) (env : Env) (b : Builder) (gs : List SGroup)
    (tracked : List PRecord) (quota : Option Bool) (wcs_terminated : List PRecord)
    (fuel : Nat) : SubmitResult :=
  match rebuild_for_resubmit s b wcs_terminated with
  | none => ⟨.err .indexError, tracked, gs, [], s⟩
  | some (b2, evs0) =>
    if quota == some false then
      ⟨.err .ioError, tracked, gs, evs0, s⟩
    else
      loop_go s env b2 gs fuel 0 0 tracked evs0

/-- `SubmissionSupervisor.blocking_submit(builder, groups)`.  The guard runs
first (the result's `settings` field is the post-guard `self.settings`), then
the label check, then the iteration over `groups` (raising TypeError on
`None`), then the query + classification of existing matches, then the
four-way dispatch. -/
def blocking_submit (sup : Supervisor) (b : Builder) (groups : Option (List SGroup))
    (env : Env) (fuel : Nat) : SubmitResult :=
  if b.label == "" then
    ⟨.err .valueError, sup.tracked, groups.getD [], [],
      (tmp_guard_against_delete_if_stalling sup.settings).1⟩
  else
    match groups with
    | none =>
      ⟨.err .typeError, sup.tracked, [], [], (tmp_guard_against_delete_if_stalling sup.settings).1⟩
    | some gs =>
      match (query_matches gs b).filter is_finished_ok with
      | r :: _ =>
        ⟨.ret (some r) (some true), sup.tracked, gs, [],
          (tmp_guard_against_delete_if_stalling sup.settings).1⟩
      | [] =>
        match (query_matches gs b).filter is_terminated,
            (tmp_guard_against_delete_if_stalling sup.settings).1.resubmit_failed with
        | t :: _, false =>
          ⟨.ret (some t) (some true), sup.tracked, gs, [],
            (tmp_guard_against_delete_if_stalling sup.settings).1⟩
        | _, _ =>
          match (query_matches gs b).filter (fun r => !(is_terminated r)) with
          | p :: _ =>
            ⟨.ret (some p) (some false), sup.tracked ++ [p], gs, [],
              (tmp_guard_against_delete_if_stalling sup.settings).1⟩
          | [] =>
            submit_branch (tmp_guard_against_delete_if_stalling sup.settings).1 env b gs
              sup.tracked sup.quota ((query_matches gs b).filter is_terminated) fuel

/-
Helper lemmas: the temporary-group lifecycle of `classify_by_state`.
-/

lemma group_for_classification_spec (store : CStore) :
    ∀ supply lbl st1, group_for_classification store supply = some (lbl, st1) →
      (∀ g ∈ store.groups, (g.1 == lbl) = false) ∧
      st1 = { store with groups := store.groups ++ [(lbl, [])] } := by
  intro supply
  induction supply with
  | nil => intro lbl st1 h; simp [group_for_classification] at h
  | cons l rest ih =>
    intro lbl st1 h
    unfold group_for_classification at h
    by_cases hany : store.groups.any (fun g => g.1 == l) = true
    · rw [if_pos hany] at h
      exact ih lbl st1 h
    · rw [if_neg hany] at h
      have hf := List.any_eq_false.mp (Bool.eq_false_iff.mpr hany)
      simp only [Option.some.injEq, Prod.mk.injEq] at h
      obtain ⟨rfl, rfl⟩ := h
      exact ⟨fun g hg => Bool.eq_false_iff.mpr (hf g hg), rfl⟩

lemma map_set_fresh (G : List (String × List Nat)) (lbl : String) (ms : List Nat)
    (h : ∀ g ∈ G, (g.1 == lbl) = false) :
    (G ++ [(lbl, [])]).map (fun g : String × List Nat => if g.1 == lbl then (g.1, ms) else g)
      = G ++ [(lbl, ms)] := by
  rw [List.map_append]
  have h1 : G.map (fun g : String × List Nat => if g.1 == lbl then (g.1, ms) else g) = G := by
    conv_rhs => rw [← List.map_id G]
    apply List.map_congr_left
    intro a ha
    simp [h a ha]
  rw [h1]
  simp

lemma find_fresh (G : List (String × List Nat)) (lbl : String) (ms : List Nat)
    (h : ∀ g ∈ G, (g.1 == lbl) = false) :
    (G ++ [(lbl, ms)]).find? (fun g => g.1 == lbl) = some (lbl, ms) := by
  rw [List.find?_append]
  have h1 : G.find? (fun g => g.1 == lbl) = none :=
    List.find?_eq_none.mpr (fun x hx => by simp [h x hx])
  simp [h1]

lemma filter_fresh (G : List (String × List Nat)) (lbl : String) (ms : List Nat)
    (h : ∀ g ∈ G, (g.1 == lbl) = false) :
    (G ++ [(lbl, ms)]).filter (fun g => g.1 != lbl) = G := by
  rw [List.filter_append]
  have h1 : G.filter (fun g => g.1 != lbl) = G :=
    List.filter_eq_self.mpr (fun a ha => by simp [bne, h a ha])
  simp [h1]

lemma classify_run_spec (store : CStore) (supply : List String) (batch : List PRecord)
    (c : Classified) (st' : CStore)
    (h : classify_by_state_run store supply batch false = some (.ok c, st')) :
    c = classify_canonical store.records batch ∧ st' = store := by
  obtain ⟨recs, G⟩ := store
  unfold classify_by_state_run at h
  cases hg : group_for_classification ⟨recs, G⟩ supply with
  | none => rw [hg] at h; simp at h
  | some p =>
    obtain ⟨lbl, store1⟩ := p
    rw [hg] at h
    obtain ⟨hfresh, hst1⟩ := group_for_classification_spec ⟨recs, G⟩ supply lbl store1 hg
    subst hst1
    simp only [Bool.false_eq_true, if_false] at h
    have hset : set_group_members ⟨recs, G ++ [(lbl, [])]⟩ lbl (batch.map (fun r => r.uuid))
        = ⟨recs, G ++ [(lbl, batch.map (fun r => r.uuid))]⟩ := by
      simp only [set_group_members]
      exact congrArg (fun gr => CStore.mk recs gr) (map_set_fresh G lbl _ hfresh)
    rw [hset] at h
    have hmem : get_group_members ⟨recs, G ++ [(lbl, batch.map (fun r => r.uuid))]⟩ lbl
        = batch.map (fun r => r.uuid) := by
      simp only [get_group_members]
      rw [find_fresh G lbl _ hfresh]
    rw [hmem] at h
    have hdel : delete_group ⟨recs, G ++ [(lbl, batch.map (fun r => r.uuid))]⟩ lbl
        = ⟨recs, G⟩ := by
      simp only [delete_group]
      exact congrArg (fun gr => CStore.mk recs gr) (filter_fresh G lbl _ hfresh)
    rw [hdel] at h
    simp only [Option.some.injEq, Prod.mk.injEq, Except.ok.injEq] at h
    obtain ⟨rfl, rfl⟩ := h
    exact ⟨rfl, rfl⟩

/-
Helper lemmas: the finished-bucket grouping and the partition property.
-/

lemma insert_finished_keys (acc : List (Option Int × List PRecord)) (p : PRecord) :
    (insert_finished acc p).map (fun kv => kv.1)
      = if acc.any (fun kv => kv.1 == p.exitStatus)
        then acc.map (fun kv => kv.1)
        else acc.map (fun kv => kv.1) ++ [p.exitStatus] := by
  cases hc : acc.any (fun kv => kv.1 == p.exitStatus) with
  | false =>
    simp only [insert_finished, hc, Bool.false_eq_true, if_false, List.map_append, List.map_cons,
      List.map_nil]
  | true =>
    simp only [insert_finished, hc, if_true, List.map_map]
    apply List.map_congr_left
    intro a _
    cases h2 : (a.1 == p.exitStatus) <;> simp [Function.comp, h2]

lemma build_step_nodup (acc : List (Option Int × List PRecord)) (p : PRecord)
    (hN : (acc.map (fun kv => kv.1)).Nodup) :
    ((insert_finished acc p).map (fun kv => kv.1)).Nodup := by
  rw [insert_finished_keys]
  cases hc : acc.any (fun kv => kv.1 == p.exitStatus) with
  | true => simpa using hN
  | false =>
    simp only [Bool.false_eq_true, if_false]
    have hmem : p.exitStatus ∉ acc.map (fun kv => kv.1) := by
      intro hm
      obtain ⟨kv, hkv, hkey⟩ := List.mem_map.mp hm
      have := List.any_eq_false.mp hc kv hkv
      simp [hkey] at this
    rw [← List.concat_eq_append]
    exact List.Nodup.concat hmem hN

lemma insert_finished_flat (acc : List (Option Int × List PRecord)) (p : PRecord)
    (hN : (acc.map (fun kv => kv.1)).Nodup) :
    (((insert_finished acc p).map (fun kv => kv.2)).flatten).Perm
      (((acc.map (fun kv => kv.2)).flatten) ++ [p]) := by
  induction acc with
  | nil => simp [insert_finished]
  | cons kv t ih =>
    have hN' : (kv.1 :: t.map (fun kv => kv.1)).Nodup := by
      rw [List.map_cons] at hN; exact hN
    have hNt : (t.map (fun kv => kv.1)).Nodup := (List.nodup_cons.mp hN').2
    have hhead : kv.1 ∉ t.map (fun kv => kv.1) := (List.nodup_cons.mp hN').1
    cases hk : (kv.1 == p.exitStatus) with
    | true =>
      have hkey : kv.1 = p.exitStatus := eq_of_beq hk
      have hany : (kv :: t).any (fun x => x.1 == p.exitStatus) = true := by
        simp [List.any_cons, hk]
      have htail : t.map (fun x => if x.1 == p.exitStatus then (x.1, x.2 ++ [p]) else x) = t := by
        conv_rhs => rw [← List.map_id t]
        apply List.map_congr_left
        intro a ha
        have hne : (a.1 == p.exitStatus) = false := by
          cases hbe : (a.1 == p.exitStatus) with
          | false => rfl
          | true =>
            exact absurd (hkey ▸ (eq_of_beq hbe) ▸ List.mem_map.mpr ⟨a, ha, rfl⟩) hhead
        simp [hne]
      rw [insert_finished, if_pos hany, List.map_cons, if_pos hk, htail, List.map_cons,
        List.map_cons, List.flatten_cons, List.flatten_cons, List.append_assoc, List.append_assoc]
      exact List.Perm.append_left kv.2 List.perm_append_comm
    | false =>
      cases hany : t.any (fun x => x.1 == p.exitStatus) with
      | true =>
        have hany2 : (kv :: t).any (fun x => x.1 == p.exitStatus) = true := by
          simp [List.any_cons, hany]
        have ht : t.map (fun x => if x.1 == p.exitStatus then (x.1, x.2 ++ [p]) else x)
            = insert_finished t p := by
          rw [insert_finished, if_pos hany]
        rw [insert_finished, if_pos hany2, List.map_cons, if_neg (by simp [hk]), ht,
          List.map_cons, List.map_cons, List.flatten_cons, List.flatten_cons, List.append_assoc]
        exact List.Perm.append_left kv.2 (ih hNt)
      | false =>
        have hany2 : (kv :: t).any (fun x => x.1 == p.exitStatus) = false := by
          simp [List.any_cons, hk, hany]
        rw [insert_finished, if_neg (by simp [hany2])]
        simp

lemma build_finished_flat_aux :
    ∀ (l : List PRecord) (acc : List (Option Int × List PRecord)),
      (acc.map (fun kv => kv.1)).Nodup →
      (((l.foldl insert_finished acc).map (fun kv => kv.2)).flatten).Perm
        (((acc.map (fun kv => kv.2)).flatten) ++ l) := by
  intro l
  induction l with
  | nil => intro acc _; simp
  | cons p l ih =>
    intro acc hN
    rw [List.foldl_cons]
    have h3 := ih (insert_finished acc p) (build_step_nodup acc p hN)
    have h4 := insert_finished_flat acc p hN
    have h5 : (((acc.map (fun kv => kv.2)).flatten) ++ (p :: l))
        = ((((acc.map (fun kv => kv.2)).flatten) ++ [p]) ++ l) := by
      rw [List.append_assoc, List.singleton_append]
    rw [h5]
    exact h3.trans (List.Perm.append_right l h4)

lemma build_finished_flat (l : List PRecord) :
    (((build_finished l).map (fun kv => kv.2)).flatten).Perm l := by
  have h := build_finished_flat_aux l [] (by simp)
  simpa [build_finished] using h

lemma count_filter_eq {α : Type} [DecidableEq α] (p : α → Bool) (a : α) (l : List α) :
    List.count a (l.filter p) = if p a then List.count a l else 0 := by
  cases hp : p a with
  | true => simp only [hp, if_true]; exact List.count_filter hp
  | false =>
    simp only [hp, Bool.false_eq_true, if_false]
    rw [List.count_eq_zero]
    intro hmem
    have h2 := (List.mem_filter.mp hmem).2
    rw [hp] at h2
    exact Bool.false_ne_true h2

lemma canonical_filter_eq (B : List PRecord) (st : String) :
    B.filter (fun r => (B.map (fun x => x.uuid)).contains r.uuid && psString r.state == st)
      = B.filter (fun r => psString r.state == st) := by
  apply List.filter_congr
  intro x hx
  have hc : (B.map (fun x => x.uuid)).contains x.uuid = true :=
    List.elem_iff.mpr (List.mem_map.mpr ⟨x, hx, rfl⟩)
  rw [hc, Bool.true_and]

lemma canonical_union_perm (B : List PRecord) :
    (union_list (classify_canonical B B)).Perm B := by
  unfold union_list classify_canonical classify_buckets
  simp only [canonical_filter_eq]
  rw [List.perm_iff_count]
  intro a
  simp only [List.count_append]
  rw [(build_finished_flat (B.filter (fun r => psString r.state == "finished"))).count_eq a]
  simp only [count_filter_eq]
  cases ha : a.state <;> simp [psString, ha]

lemma classifier_count_none_closed (c : Classified) :
    classifier_count c none
      = c.created.length + c.waiting.length + c.running.length
        + (if c.finished.isEmpty then 0 else (c.finished.map (fun kv => kv.2.length)).sum)
        + c.excepted.length + c.killed.length := by
  rcases hf : c.finished with _ | ⟨kv, t⟩
  · simp [classifier_count, Option.getD_none, state_keys, List.foldl_cons, List.foldl_nil,
      get_state_bucket, hf]
  · simp [classifier_count, Option.getD_none, state_keys, List.foldl_cons, List.foldl_nil,
      get_state_bucket, hf]

lemma canonical_count_none (B : List PRecord) :
    classifier_count (classify_canonical B B) none = B.length := by
  have hlen := (canonical_union_perm B).length_eq
  rw [classifier_count_none_closed]
  simp only [classify_canonical, classify_buckets, canonical_filter_eq] at hlen ⊢
  simp only [union_list, List.length_append] at hlen
  cases hE : (build_finished (B.filter (fun r => psString r.state == "finished"))).isEmpty with
  | true =>
    rw [List.isEmpty_iff] at hE
    rw [hE] at hlen
    simp only [List.map_nil, List.flatten_nil, List.length_nil] at hlen
    rw [hE]
    simp only [List.isEmpty_nil, if_true]
    omega
  | false =>
    rw [List.length_flatten, List.map_map] at hlen
    simp only [Function.comp_def] at hlen
    simp only [hE, Bool.false_eq_true, if_false]
    omega

/-
Helper lemmas: the settings guard, the stalling cleanup and the admission loop.
-/

lemma tmp_guard_dis (s : SSSettings) :
    (tmp_guard_against_delete_if_stalling s).1.delete_if_stalling = false := by
  unfold tmp_guard_against_delete_if_stalling
  split
  · rfl
  · rename_i h
    exact Bool.eq_false_iff.mpr h

lemma tmp_guard_of_false (s : SSSettings) (h : s.delete_if_stalling = false) :
    tmp_guard_against_delete_if_stalling s = (s, false) := by
  unfold tmp_guard_against_delete_if_stalling
  rw [h]
  simp

lemma tmp_guard_of_true (s : SSSettings) (h : s.delete_if_stalling = true) :
    tmp_guard_against_delete_if_stalling s
      = ({ s with delete_if_stalling := false, delete_if_stalling_dry_run := true }, true) := by
  unfold tmp_guard_against_delete_if_stalling
  rw [h]
  simp

lemma stall_pair_events_shape (s : SSSettings) (n : Int) (tr : List PRecord) :
    ∀ e ∈ (stall_pair s n tr).2, ∃ pk, e = Event.deleteNodes pk := by
  intro e he
  unfold stall_pair at he
  split at he
  · simp only [stall_filter] at he
    obtain ⟨wc, _, hwc2⟩ := List.mem_filterMap.mp he
    cases hd : s.delete_if_stalling_dry_run with
    | true => rw [hd] at hwc2; simp at hwc2
    | false =>
      rw [hd] at hwc2
      simp at hwc2
      exact ⟨wc.pk, hwc2.symm⟩
  · simp at he

lemma stall_pair_events_nil (s : SSSettings) (h1 : s.delete_if_stalling = false) (n : Int)
    (tr : List PRecord) : (stall_pair s n tr).2 = [] := by
  unfold stall_pair
  cases h2 : s.delete_if_stalling_dry_run with
  | false => rw [h1]; simp
  | true =>
    rw [h1]
    simp [stall_filter, h2]

lemma stall_pair_tracked_inactive (s : SSSettings) (h1 : s.delete_if_stalling = false)
    (h2 : s.delete_if_stalling_dry_run = false) (n : Int) (tr : List PRecord) :
    (stall_pair s n tr).1 = tr := by
  unfold stall_pair
  rw [h1, h2]
  simp

lemma loop_go_settings (s : SSSettings) (env : Env) (b : Builder) (gs : List SGroup) :
    ∀ fuel i waited tr evs, (loop_go s env b gs fuel i waited tr evs).settings = s := by
  intro fuel
  induction fuel with
  | zero =>
    intro i w tr evs
    simp only [loop_go]
    split <;> rfl
  | succ fuel ih =>
    intro i w tr evs
    simp only [loop_go]
    split
    · rfl
    · split
      · apply ih
      · split <;> rfl

lemma loop_go_no_delete (s : SSSettings) (env : Env) (b : Builder) (gs : List SGroup)
    (h1 : s.delete_if_stalling = false) :
    ∀ fuel i waited tr evs pk, Event.deleteNodes pk ∉ evs →
      Event.deleteNodes pk ∉ (loop_go s env b gs fuel i waited tr evs).events := by
  intro fuel
  induction fuel with
  | zero =>
    intro i w tr evs pk hevs
    simp only [loop_go]
    split
    · simp [hevs]
    · simpa using hevs
  | succ fuel ih =>
    intro i w tr evs pk hevs
    simp only [loop_go]
    split
    · simp [hevs]
    · split
      · apply ih
        simp [stall_pair_events_nil s h1, hevs]
      · split
        · simp [stall_pair_events_nil s h1, hevs]
        · simp [stall_pair_events_nil s h1, hevs]

lemma loop_go_tracked (s : SSSettings) (env : Env) (b : Builder) (gs : List SGroup)
    (h1 : s.delete_if_stalling = false) (h2 : s.delete_if_stalling_dry_run = false) :
    ∀ fuel i waited tr evs, ∃ t, (loop_go s env b gs fuel i waited tr evs).tracked = tr ++ t := by
  intro fuel
  induction fuel with
  | zero =>
    intro i w tr evs
    simp only [loop_go]
    split
    · exact ⟨[], by simp⟩
    · exact ⟨[], by simp⟩
  | succ fuel ih =>
    intro i w tr evs
    simp only [loop_go]
    split
    · exact ⟨[], by simp⟩
    · split
      · rw [stall_pair_tracked_inactive s h1 h2]
        apply ih
      · split
        · exact ⟨[], by simp [stall_pair_tracked_inactive s h1 h2]⟩
        · exact ⟨[env.fresh], by simp [stall_pair_tracked_inactive s h1 h2]⟩

lemma loop_go_blocked (s : SSSettings) (env : Env) (b : Builder) (gs : List SGroup)
    (hmax : s.max_top_processes_running = 0) (hnum : ∀ j, 1 ≤ env.numTop j)
    (hwfs : 1 ≤ s.wait_for_submit) :
    ∀ fuel i waited tr evs, s.max_wait_for_submit + 2 ≤ fuel + waited →
      (∀ b', Event.submitted b' ∉ evs) →
      (loop_go s env b gs fuel i waited tr evs).outcome = Outcome.ret none none ∧
      (∀ b', Event.submitted b' ∉ (loop_go s env b gs fuel i waited tr evs).events) := by
  intro fuel
  induction fuel with
  | zero =>
    intro i w tr evs hfuel hevs
    have hw : w > s.max_wait_for_submit := by omega
    simp only [loop_go]
    rw [if_pos hw]
    exact ⟨rfl, fun b' => by simp [hevs b']⟩
  | succ fuel ih =>
    intro i w tr evs hfuel hevs
    simp only [loop_go]
    by_cases hw : w > s.max_wait_for_submit
    · rw [if_pos hw]
      exact ⟨rfl, fun b' => by simp [hevs b']⟩
    · rw [if_neg hw]
      rw [if_pos (show (env.numTop i > s.max_top_processes_running
          || env.numAll i > s.max_all_processes_running) = true by
        simp only [Bool.or_eq_true, decide_eq_true_eq]
        exact Or.inl (by rw [hmax]; exact hnum i))]
      apply ih
      · omega
      · intro b' hmem
        rcases List.mem_append.mp hmem with h | h
        · rcases List.mem_append.mp h with h' | h'
          · exact hevs b' h'
          · obtain ⟨pk, hpk⟩ := stall_pair_events_shape s (env.now i) tr _ h'
            simp at hpk
        · simp at h

lemma rebuild_evs0_shape (s : SSSettings) (b : Builder) (term : List PRecord) (b2 : Builder)
    (evs0 : List Event) (h : rebuild_for_resubmit s b term = some (b2, evs0)) :
    evs0 = [] ∨ evs0 = [Event.warnRestartMismatch] := by
  unfold rebuild_for_resubmit at h
  split at h
  · split at h
    · split at h
      · simp at h
      · simp only [Option.some.injEq, Prod.mk.injEq] at h
        rw [← h.2]
        split
        · right; rfl
        · left; rfl
    · simp only [Option.some.injEq, Prod.mk.injEq] at h
      exact Or.inl h.2.symm
  · simp only [Option.some.injEq, Prod.mk.injEq] at h
    exact Or.inl h.2.symm

lemma submit_branch_settings (s : SSSettings) (env : Env) (b : Builder) (gs : List SGroup)
    (tr : List PRecord) (q : Option Bool) (term : List PRecord) (fuel : Nat) :
    (submit_branch s env b gs tr q term fuel).settings = s := by
  unfold submit_branch
  split
  · rfl
  · split
    · rfl
    · apply loop_go_settings

lemma blocking_submit_settings (sup : Supervisor) (b : Builder) (groups : Option (List SGroup))
    (env : Env) (fuel : Nat) :
    (blocking_submit sup b groups env fuel).settings
      = (tmp_guard_against_delete_if_stalling sup.settings).1 := by
  unfold blocking_submit
  split
  · rfl
  · split
    · rfl
    · split
      · rfl
      · split
        · rfl
        · split
          · rfl
          · apply submit_branch_settings

lemma blocking_submit_no_delete (sup : Supervisor) (b : Builder) (groups : Option (List SGroup))
    (env : Env) (fuel : Nat) (pk : Nat) :
    Event.deleteNodes pk ∉ (blocking_submit sup b groups env fuel).events := by
  unfold blocking_submit
  split
  · simp
  · split
    · simp
    · split
      · simp
      · split
        · simp
        · split
          · simp
          · unfold submit_branch
            split
            · simp
            · rename_i b2 evs0 hre
              split
              · rcases rebuild_evs0_shape _ _ _ _ _ hre with h | h <;> simp [h]
              · apply loop_go_no_delete _ _ _ _ (tmp_guard_dis sup.settings)
                intro hmem
                rcases rebuild_evs0_shape _ _ _ _ _ hre with h | h <;> rw [h] at hmem <;>
                  simp at hmem

/-
Claim theorems.
-/

/-- C1: the claim says a fresh submission (no matches at all) enters the
admission loop and submits the caller builder for all settings of the two
retry flags.  The code instead evaluates `workchains_terminated[0]` whenever
`resubmit_failed` and `resubmit_failed_as_restart` are both set (the dataclass
defaults), so with no match at all the call raises IndexError before the quota
check and the admission loop, submitting nothing. -/
theorem c1_fresh_submit_crashes_with_default_retry_flags :
    blocking_submit ⟨{}, none, []⟩ ⟨"A", "", "WC", none⟩ (some [⟨"g", []⟩])
        ⟨fun _ => 0, fun _ => 0, fun _ => 0, ⟨9, 9, "A", "", "WC", .running, none, 0⟩⟩ 3
      = ⟨.err .indexError, [], [⟨"g", []⟩], [], {}⟩ := rfl

/-- C2: when some record in the given groups matches the builder's label and
process type and is finished_ok, `blocking_submit` returns the first such
record with `from_db = True`, leaves the tracked set and the groups unchanged,
and produces no events at all (no submission, no admission loop). -/
theorem c2_finished_ok_returns_from_db (sup : Supervisor) (b : Builder) (gs : List SGroup)
    (env : Env) (fuel : Nat) (r : PRecord) (rest : List PRecord)
    (hl : b.label ≠ "")
    (hok : (query_matches gs b).filter is_finished_ok = r :: rest) :
    blocking_submit sup b (some gs) env fuel
      = ⟨.ret (some r) (some true), sup.tracked, gs, [],
          (tmp_guard_against_delete_if_stalling sup.settings).1⟩ := by
  have hbeq : (b.label == "") = false := beq_eq_false_iff_ne.mpr hl
  unfold blocking_submit
  simp only [hbeq, Bool.false_eq_true, if_false, hok]

/-- C2 witness: a concrete store with one finished_ok record labelled A. -/
theorem c2_witness :
    blocking_submit ⟨{}, none, []⟩ ⟨"A", "", "WC", none⟩
        (some [⟨"g", [⟨1, 1, "A", "", "WC", .finished, some 0, 0⟩]⟩])
        ⟨fun _ => 0, fun _ => 0, fun _ => 0, ⟨9, 9, "A", "", "WC", .running, none, 0⟩⟩ 3
      = ⟨.ret (some ⟨1, 1, "A", "", "WC", .finished, some 0, 0⟩) (some true), [],
          [⟨"g", [⟨1, 1, "A", "", "WC", .finished, some 0, 0⟩]⟩], [], {}⟩ :=
  c2_finished_ok_returns_from_db _ _ _ _ _ _ [] (by decide) (by decide)

/-- C3: requesting destructive stalling deletion is downgraded: after
constructing a supervisor from settings with `delete_if_stalling = True` the
stored settings hold `delete_if_stalling = False` and
`delete_if_stalling_dry_run = True`, the guard reports the downgrade, every
`blocking_submit` call re-applies the guard to its settings, and no
`blocking_submit` call ever emits the destructive node deletion. -/
theorem c3_delete_if_stalling_guard (s : SSSettings) (q : Option Bool)
    (h : s.delete_if_stalling = true) :
    (mk_supervisor s q).settings.delete_if_stalling = false ∧
    (mk_supervisor s q).settings.delete_if_stalling_dry_run = true ∧
    (tmp_guard_against_delete_if_stalling s).2 = true ∧
    (∀ tr b gs env fuel,
      (blocking_submit ⟨s, q, tr⟩ b gs env fuel).settings.delete_if_stalling = false ∧
      (blocking_submit ⟨s, q, tr⟩ b gs env fuel).settings.delete_if_stalling_dry_run = true) ∧
    (∀ sup b gs env fuel pk,
      Event.deleteNodes pk ∉ (blocking_submit sup b gs env fuel).events) := by
  refine ⟨?_, ?_, ?_, ?_, ?_⟩
  · simp [mk_supervisor, tmp_guard_of_true s h]
  · simp [mk_supervisor, tmp_guard_of_true s h]
  · simp [tmp_guard_of_true s h]
  · intro tr b gs env fuel
    constructor
    · rw [blocking_submit_settings]
      simp [tmp_guard_of_true s h]
    · rw [blocking_submit_settings]
      simp [tmp_guard_of_true s h]
  · intro sup b gs env fuel pk
    exact blocking_submit_no_delete sup b gs env fuel pk

/-- C3 witness: the guard invariant evaluated on concrete settings. -/
theorem c3_witness :
    (mk_supervisor { delete_if_stalling := true } none).settings.delete_if_stalling = false :=
  (c3_delete_if_stalling_guard { delete_if_stalling := true } none rfl).1

/-- C10 counterexample: with the builder label empty and groups = None the
call raises ValueError (from the label check), not TypeError, so the claim as
stated over every call with groups omitted fails. -/
theorem c10_counterexample :
    (blocking_submit ⟨{}, none, []⟩ ⟨"", "", "WC", none⟩ none
        ⟨fun _ => 0, fun _ => 0, fun _ => 0, ⟨9, 9, "A", "", "WC", .running, none, 0⟩⟩ 3).outcome
      = Outcome.err .valueError ∧
    Outcome.err .valueError ≠ Outcome.err .typeError :=
  ⟨rfl, by decide⟩

/-- C10 amended: for every call with groups = None and a non-empty builder
label, `blocking_submit` raises TypeError while iterating over the groups,
before any query, classification or submission: no events, tracked unchanged. -/
theorem c10_groups_none_raises_type_error (sup : Supervisor) (b : Builder) (env : Env)
    (fuel : Nat) (hl : b.label ≠ "") :
    blocking_submit sup b none env fuel
      = ⟨.err .typeError, sup.tracked, [], [],
          (tmp_guard_against_delete_if_stalling sup.settings).1⟩ := by
  have hbeq : (b.label == "") = false := beq_eq_false_iff_ne.mpr hl
  unfold blocking_submit
  simp only [hbeq, Bool.false_eq_true, if_false]

/-- C10 witness: concrete call with a set label and groups = None. -/
theorem c10_witness :
    blocking_submit ⟨{}, none, []⟩ ⟨"A", "", "WC", none⟩ none
        ⟨fun _ => 0, fun _ => 0, fun _ => 0, ⟨9, 9, "A", "", "WC", .running, none, 0⟩⟩ 3
      = ⟨.err .typeError, [], [], [], {}⟩ :=
  c10_groups_none_raises_type_error _ _ _ _ (by decide)

/-- C5 counterexample: with `max_top_processes_running = 0` but no running
process reported by the store, the ceiling test `num_running(0) > 0` fails and
the call reaches the submit branch immediately (dry-run return
`(None, False)`), instead of timing out with `(None, None)`. -/
theorem c5_counterexample :
    (blocking_submit
        ⟨{ dry_run := true, max_top_processes_running := 0, wait_for_submit := 1,
           max_wait_for_submit := 1, resubmit_failed := false }, none, []⟩
        ⟨"A", "", "WC", none⟩ (some [⟨"g", []⟩])
        ⟨fun _ => 0, fun _ => 0, fun _ => 0, ⟨9, 9, "A", "", "WC", .running, none, 0⟩⟩ 5).outcome
      = Outcome.ret none (some false) ∧
    Outcome.ret none (some false) ≠ Outcome.ret none none :=
  ⟨rfl, by decide⟩

/-- C5 amended: with `max_top_processes_running = 0`, provided the retry crash
is avoided (`resubmit_failed = False`), the quota passes, no match exists, and
every poll observes at least one running top process (`num_running(0) >= 1`),
the admission loop never reaches the submit branch and times out, returning
`(None, None)`; no submission event is ever emitted. -/
theorem c5_ceiling_zero_blocked_timeout (sup : Supervisor) (b : Builder) (gs : List SGroup)
    (env : Env) (fuel : Nat)
    (hl : b.label ≠ "")
    (hmatch : query_matches gs b = [])
    (hre : (tmp_guard_against_delete_if_stalling sup.settings).1.resubmit_failed = false)
    (hq : sup.quota ≠ some false)
    (htop : (tmp_guard_against_delete_if_stalling sup.settings).1.max_top_processes_running = 0)
    (hnum : ∀ j, 1 ≤ env.numTop j)
    (hwfs : 1 ≤ (tmp_guard_against_delete_if_stalling sup.settings).1.wait_for_submit)
    (hfuel : (tmp_guard_against_delete_if_stalling sup.settings).1.max_wait_for_submit + 2
      ≤ fuel) :
    (blocking_submit sup b (some gs) env fuel).outcome = Outcome.ret none none ∧
    ∀ b', Event.submitted b' ∉ (blocking_submit sup b (some gs) env fuel).events := by
  have hbeq : (b.label == "") = false := beq_eq_false_iff_ne.mpr hl
  have hqbeq : (sup.quota == some false) = false := beq_eq_false_iff_ne.mpr hq
  unfold blocking_submit
  simp only [hbeq, Bool.false_eq_true, if_false, hmatch, List.filter_nil]
  unfold submit_branch rebuild_for_resubmit
  simp only [hre, Bool.false_eq_true, if_false, hqbeq]
  exact loop_go_blocked _ env b gs htop hnum hwfs fuel 0 0 sup.tracked []
    (by omega) (by simp)

/-- C5 witness: the spec's scenario with the store reporting one running top
process at every poll. -/
theorem c5_witness :
    (blocking_submit
        ⟨{ dry_run := true, max_top_processes_running := 0, wait_for_submit := 1,
           max_wait_for_submit := 1, resubmit_failed := false }, none, []⟩
        ⟨"A", "", "WC", none⟩ (some [⟨"g", []⟩])
        ⟨fun _ => 1, fun _ => 0, fun _ => 0, ⟨9, 9, "A", "", "WC", .running, none, 0⟩⟩ 5).outcome
      = Outcome.ret none none :=
  (c5_ceiling_zero_blocked_timeout
    ⟨{ dry_run := true, max_top_processes_running := 0, wait_for_submit := 1,
       max_wait_for_submit := 1, resubmit_failed := false }, none, []⟩
    ⟨"A", "", "WC", none⟩ [⟨"g", []⟩]
    ⟨fun _ => 1, fun _ => 0, fun _ => 0, ⟨9, 9, "A", "", "WC", .running, none, 0⟩⟩ 5
    (by decide) (by decide) rfl (by decide) rfl (fun j => le_refl 1) (by decide)
    (by decide)).1

/-- C6 counterexample: with the dry-run stalling variant active
(`delete_if_stalling = False`, `delete_if_stalling_dry_run = True`) a stalling
tracked entry is removed from the tracked set even though deletion is disabled:
the tracked set ends empty and no node deletion event is emitted. -/
theorem c6_counterexample :
    (blocking_submit
        ⟨{ dry_run := true, resubmit_failed := false, delete_if_stalling_dry_run := true,
           max_wait_for_stalling := 0 }, none, [⟨2, 2, "B", "", "WC", .running, none, 0⟩]⟩
        ⟨"A", "", "WC", none⟩ (some [⟨"g", []⟩])
        ⟨fun _ => 0, fun _ => 0, fun _ => 1, ⟨9, 9, "A", "", "WC", .running, none, 0⟩⟩ 5).tracked
      = [] ∧
    (blocking_submit
        ⟨{ dry_run := true, resubmit_failed := false, delete_if_stalling_dry_run := true,
           max_wait_for_stalling := 0 }, none, [⟨2, 2, "B", "", "WC", .running, none, 0⟩]⟩
        ⟨"A", "", "WC", none⟩ (some [⟨"g", []⟩])
        ⟨fun _ => 0, fun _ => 0, fun _ => 1, ⟨9, 9, "A", "", "WC", .running, none, 0⟩⟩ 5).events
      = [Event.ceilingCheck] :=
  ⟨rfl, rfl⟩

/-- C6 amended: tracked entries are removed by the stalling filter whenever
either stalling mode (destructive or dry-run) is active; when neither flag is
set, a `blocking_submit` call can only extend the tracked set, never remove
from it. -/
theorem c6_tracked_only_grows_when_stall_check_inactive (sup : Supervisor) (b : Builder)
    (groups : Option (List SGroup)) (env : Env) (fuel : Nat)
    (h1 : sup.settings.delete_if_stalling = false)
    (h2 : sup.settings.delete_if_stalling_dry_run = false) :
    ∃ t, (blocking_submit sup b groups env fuel).tracked = sup.tracked ++ t := by
  have hg : tmp_guard_against_delete_if_stalling sup.settings = (sup.settings, false) :=
    tmp_guard_of_false sup.settings h1
  unfold blocking_submit
  rw [hg]
  split
  · exact ⟨[], by simp⟩
  · split
    · exact ⟨[], by simp⟩
    · split
      · exact ⟨[], by simp⟩
      · split
        · exact ⟨[], by simp⟩
        · split
          · rename_i p ps heq
            exact ⟨[p], rfl⟩
          · unfold submit_branch
            split
            · exact ⟨[], by simp⟩
            · split
              · exact ⟨[], by simp⟩
              · exact loop_go_tracked _ env _ _ h1 h2 fuel 0 0 sup.tracked _

/-- C6 witness: concrete call with both stalling flags off. -/
theorem c6_witness :
    ∃ t, (blocking_submit ⟨{}, none, []⟩ ⟨"A", "", "WC", none⟩ (some [⟨"g", []⟩])
        ⟨fun _ => 0, fun _ => 0, fun _ => 0, ⟨9, 9, "A", "", "WC", .running, none, 0⟩⟩ 3).tracked
      = [] ++ t :=
  c6_tracked_only_grows_when_stall_check_inactive _ _ _ _ _ rfl rfl

/-- C7 counterexample: a call that reaches the submission branch with the
quota collaborator reporting insufficient space still raises IndexError, not
IOError, when both retry flags are set and no terminated match exists: the
restart rebuilding precedes the quota check. -/
theorem c7_counterexample :
    (blocking_submit ⟨{}, some false, []⟩ ⟨"B2", "", "WC", none⟩ (some [⟨"h", []⟩])
        ⟨fun _ => 0, fun _ => 0, fun _ => 0, ⟨9, 9, "B2", "", "WC", .running, none, 0⟩⟩ 3).outcome
      = Outcome.err .indexError ∧
    Outcome.err .indexError ≠ Outcome.err .ioError :=
  ⟨rfl, by decide⟩

/-- C7 amended: whenever the call reaches the submission branch, the restart
rebuilding step succeeds, and the quota collaborator reports insufficient free
space, the call fails immediately with IOError: the admission loop is never
entered, no sleep, ceiling check or submission happens (at most the restart
metadata-mismatch warning is emitted), and the tracked set is unchanged. -/
theorem c7_quota_abort_before_loop (sup : Supervisor) (b : Builder) (gs : List SGroup)
    (env : Env) (fuel : Nat) (b2 : Builder) (evs0 : List Event)
    (hl : b.label ≠ "")
    (hok : (query_matches gs b).filter is_finished_ok = [])
    (hnt : (query_matches gs b).filter (fun r => !(is_terminated r)) = [])
    (hreach : (query_matches gs b).filter is_terminated = []
      ∨ (tmp_guard_against_delete_if_stalling sup.settings).1.resubmit_failed = true)
    (hre : rebuild_for_resubmit (tmp_guard_against_delete_if_stalling sup.settings).1 b
        ((query_matches gs b).filter is_terminated) = some (b2, evs0))
    (hq : sup.quota = some false) :
    blocking_submit sup b (some gs) env fuel
      = ⟨.err .ioError, sup.tracked, gs, evs0,
          (tmp_guard_against_delete_if_stalling sup.settings).1⟩ ∧
    (evs0 = [] ∨ evs0 = [Event.warnRestartMismatch]) := by
  constructor
  · have hbeq : (b.label == "") = false := beq_eq_false_iff_ne.mpr hl
    have hqbeq : (sup.quota == some false) = true := by rw [hq]; rfl
    unfold blocking_submit
    simp only [hbeq, Bool.false_eq_true, if_false, hok]
    rcases hterm : (query_matches gs b).filter is_terminated with _ | ⟨t, ts⟩
    · rw [hterm] at hre
      simp only [hnt]
      unfold submit_branch
      simp only [hre, hqbeq, if_true]
    · have hres : (tmp_guard_against_delete_if_stalling sup.settings).1.resubmit_failed
          = true := by
        rcases hreach with h | h
        · rw [hterm] at h; simp at h
        · exact h
      rw [hterm] at hre
      rw [hres]
      simp only [hnt]
      unfold submit_branch
      simp only [hre, hqbeq, if_true]
  · exact rebuild_evs0_shape _ _ _ _ _ hre

/-- C7 witness: concrete quota-insufficient call with the retry flag off. -/
theorem c7_witness :
    blocking_submit ⟨{ resubmit_failed := false }, some false, []⟩ ⟨"A", "", "WC", none⟩
        (some [⟨"g", []⟩])
        ⟨fun _ => 0, fun _ => 0, fun _ => 0, ⟨9, 9, "A", "", "WC", .running, none, 0⟩⟩ 3
      = ⟨.err .ioError, [], [⟨"g", []⟩], [], { resubmit_failed := false }⟩ :=
  (c7_quota_abort_before_loop ⟨{ resubmit_failed := false }, some false, []⟩
    ⟨"A", "", "WC", none⟩ [⟨"g", []⟩]
    ⟨fun _ => 0, fun _ => 0, fun _ => 0, ⟨9, 9, "A", "", "WC", .running, none, 0⟩⟩ 3
    ⟨"A", "", "WC", none⟩ [] (by decide) (by decide) (by decide)
    (Or.inl (by decide)) (by decide) rfl).1

/-- C4: for a batch with pairwise distinct uuids that is exactly the store's
current record set, a successful `classify_by_state` run partitions the batch:
the union of all state buckets (finished expanded across its exit-status
sub-buckets) is a permutation of the batch without repetition, and `count`
over all six states returns the batch length. -/
theorem c4_classify_partition (B : List PRecord) (gs0 : List (String × List Nat))
    (supply : List String) (c : Classified) (st' : CStore)
    (hN : (B.map (fun r => r.uuid)).Nodup)
    (hrun : classify_by_state_run ⟨B, gs0⟩ supply B false = some (.ok c, st')) :
    (union_list c).Perm B ∧ (union_list c).Nodup ∧ classifier_count c none = B.length := by
  obtain ⟨hc, _⟩ := classify_run_spec ⟨B, gs0⟩ supply B c st' hrun
  subst hc
  refine ⟨canonical_union_perm B, ?_, canonical_count_none B⟩
  exact (canonical_union_perm B).symm.nodup (List.Nodup.of_map _ hN)

/-- C4 witness: a two-record batch, one created and one finished_ok. -/
theorem c4_witness :
    (union_list ⟨[⟨1, 1, "A", "", "WC", .created, none, 0⟩], [], [], [], [],
        [(some 0, [⟨2, 2, "B", "", "WC", .finished, some 0, 0⟩])]⟩).Perm
      [⟨1, 1, "A", "", "WC", .created, none, 0⟩, ⟨2, 2, "B", "", "WC", .finished, some 0, 0⟩] ∧
    (union_list ⟨[⟨1, 1, "A", "", "WC", .created, none, 0⟩], [], [], [], [],
        [(some 0, [⟨2, 2, "B", "", "WC", .finished, some 0, 0⟩])]⟩).Nodup ∧
    classifier_count ⟨[⟨1, 1, "A", "", "WC", .created, none, 0⟩], [], [], [], [],
        [(some 0, [⟨2, 2, "B", "", "WC", .finished, some 0, 0⟩])]⟩ none
      = ([⟨1, 1, "A", "", "WC", .created, none, 0⟩,
          ⟨2, 2, "B", "", "WC", .finished, some 0, 0⟩] : List PRecord).length :=
  c4_classify_partition
    [⟨1, 1, "A", "", "WC", .created, none, 0⟩, ⟨2, 2, "B", "", "WC", .finished, some 0, 0⟩]
    [] ["t"]
    ⟨[⟨1, 1, "A", "", "WC", .created, none, 0⟩], [], [], [], [],
      [(some 0, [⟨2, 2, "B", "", "WC", .finished, some 0, 0⟩])]⟩
    ⟨[⟨1, 1, "A", "", "WC", .created, none, 0⟩, ⟨2, 2, "B", "", "WC", .finished, some 0, 0⟩], []⟩
    (by decide) rfl

/-- C8 counterexample: when populating the temporary group fails midway, the
freshly stored (empty) classification group survives in the store: no cleanup
runs in the failing call itself, contradicting the claim that the deletion
happens even if constructing or populating fails. -/
theorem c8_counterexample :
    classify_by_state_run ⟨[⟨1, 1, "A", "", "WC", .created, none, 0⟩], []⟩
        ["process_classification_x"] [⟨1, 1, "A", "", "WC", .created, none, 0⟩] true
      = some (.error (), ⟨[⟨1, 1, "A", "", "WC", .created, none, 0⟩],
          [("process_classification_x", [])]⟩) ∧
    (⟨[⟨1, 1, "A", "", "WC", .created, none, 0⟩],
        [("process_classification_x", [])]⟩ : CStore).groups ≠ [] :=
  ⟨rfl, by decide⟩

/-- C8 amended: on a successful run the temporary group is created, populated,
used for the state re-query and deleted, leaving the store exactly as before;
a leftover group from a run that failed while populating survives that run and
is only purged at the next `ProcessClassifier` construction, whose cleanup
removes every group whose label starts with the temporary prefix. -/
theorem c8_success_cleanup_and_init_purge :
    (∀ store supply batch c st',
      classify_by_state_run store supply batch false = some (.ok c, st') → st' = store) ∧
    (∀ store : CStore, ∀ g ∈ (classifier_init_purge store).groups,
      g.1.startsWith tmp_label_head = false) := by
  constructor
  · intro store supply batch c st' h
    exact (classify_run_spec store supply batch c st' h).2
  · intro store g hg
    unfold classifier_init_purge at hg
    have h2 := (List.mem_filter.mp hg).2
    simpa using h2

/-- C8 witness: a successful empty run leaves the store unchanged, and the
init purge keeps only groups outside the temporary prefix. -/
theorem c8_witness :
    ((⟨[], []⟩ : CStore) = ⟨[], []⟩) ∧
    (("x", ([] : List Nat)).1.startsWith tmp_label_head = false) :=
  ⟨c8_success_cleanup_and_init_purge.1 ⟨[], []⟩ ["t"] [] ⟨[], [], [], [], [], []⟩ ⟨[], []⟩ rfl,
   c8_success_cleanup_and_init_purge.2 ⟨[], [("x", [])]⟩ ("x", []) (by decide)⟩

/-- C9: two successive `classify_by_state` runs over the same batch against a
store that is unchanged in between (the first run restores it) produce the
same classification. -/
theorem c9_classify_idempotent (store : CStore) (sup1 sup2 : List String)
    (batch : List PRecord) (c1 c2 : Classified) (st1 st2 : CStore)
    (h1 : classify_by_state_run store sup1 batch false = some (.ok c1, st1))
    (h2 : classify_by_state_run st1 sup2 batch false = some (.ok c2, st2)) :
    c2 = c1 := by
  obtain ⟨hc1, hst1⟩ := classify_run_spec store sup1 batch c1 st1 h1
  obtain ⟨hc2, hst2⟩ := classify_run_spec st1 sup2 batch c2 st2 h2
  rw [hc1, hc2, hst1]

/-- C9 witness: a double run on a one-record store. -/
theorem c9_witness :
    (⟨[], [], [], [], [],
        [(some 0, [⟨2, 2, "B", "", "WC", .finished, some 0, 0⟩])]⟩ : Classified)
      = ⟨[], [], [], [], [], [(some 0, [⟨2, 2, "B", "", "WC", .finished, some 0, 0⟩])]⟩ :=
  c9_classify_idempotent ⟨[⟨2, 2, "B", "", "WC", .finished, some 0, 0⟩], []⟩ ["t1"] ["t2"]
    [⟨2, 2, "B", "", "WC", .finished, some 0, 0⟩]
    ⟨[], [], [], [], [], [(some 0, [⟨2, 2, "B", "", "WC", .finished, some 0, 0⟩])]⟩
    ⟨[], [], [], [], [], [(some 0, [⟨2, 2, "B", "", "WC", .finished, some 0, 0⟩])]⟩
    ⟨[⟨2, 2, "B", "", "WC", .finished, some 0, 0⟩], []⟩
    ⟨[⟨2, 2, "B", "", "WC", .finished, some 0, 0⟩], []⟩
    rfl rfl
